import Mathlib

/-!
Verification of the lm-bbw brew-by-weight controller.

This file gives a shallow embedding of the pure logic of the repository:
the scale protocol codec (src/lib/pyacaia.py), the brew safety controller
(src/lib/control.py) and the shot orchestrator's per-tick checks
(src/lm-bbw.py).  Byte buffers are lists of naturals (Python bytearrays
guarantee entries below 256); floats are modelled as rationals; the
stateful methods become explicit state-passing functions, with a boolean
result recording whether a side effect (relay off, scale disconnect, ...)
was invoked.  Python exceptions that a caller catches are modelled with
Option.
-/

namespace LmBbw

/-! ## Protocol codec, from src/lib/pyacaia.py -/

/-- First magic header byte (0xef). -/
def HEADER1 : Nat := 0xef

/-- Second magic header byte (0xdd). -/
def HEADER2 : Nat := 0xdd

/-- Checksum over the even positions of a byte list, each value masked to
8 bits before summing.  This is the running sum the loop in the source's
encode function keeps in cksum1; applied to the tail of the payload it is
cksum2. -/
def sumEven : List Nat → Nat
  | [] => 0
  | [a] => a % 256
  | a :: _ :: rest => a % 256 + sumEven rest

/-- Frame builder: two magic bytes, the message type, the payload masked
to 8 bits, then the two checksum bytes (even/odd position running sums,
each truncated to 8 bits). -/
def encode (msgType : Nat) (payload : List Nat) : List Nat :=
  HEADER1 :: HEADER2 :: msgType ::
    (payload.map (fun v => v % 256) ++
      [sumEven payload % 256, sumEven (payload.drop 1) % 256])

/-- Event-frame wrapper: prepends the byte count (payload length plus one)
to the masked payload and frames the result with message type 12. -/
def encodeEventData (payload : List Nat) : List Nat :=
  encode 12 ((payload.length + 1) :: payload.map (fun v => v % 256))

/-- Divisor table of the weight decoder, selected by the fifth payload
byte (masked to 8 bits): 1 maps to 10, 2 to 100, 3 to 1000, 4 to 10000,
anything else defaults to 10. -/
def weightDivisor (p : List Nat) : ℚ :=
  if p.getD 4 0 % 256 = 1 then 10
  else if p.getD 4 0 % 256 = 2 then 100
  else if p.getD 4 0 % 256 = 3 then 1000
  else if p.getD 4 0 % 256 = 4 then 10000
  else 10

/-- Sign of a decoded weight: negative exactly when bit 1 of the sixth
payload byte is set. -/
def weightSign (p : List Nat) : ℚ :=
  if p.getD 5 0 / 2 % 2 = 1 then -1 else 1

/-- The first four payload bytes read as an unsigned big-endian integer. -/
def rawBE (p : List Nat) : ℚ :=
  ((p.getD 0 0) * 16777216 + (p.getD 1 0) * 65536 +
    (p.getD 2 0) * 256 + p.getD 3 0 : Nat)

/-- The first four payload bytes read as an unsigned little-endian
integer. -/
def rawLE (p : List Nat) : ℚ :=
  ((p.getD 3 0) * 16777216 + (p.getD 2 0) * 65536 +
    (p.getD 1 0) * 256 + p.getD 0 0 : Nat)

/-- A decoded scale message: type, raw payload, and the optional decoded
weight, button name and time fields. -/
structure Message where
  msgType : Nat
  payload : List Nat
  value : Option ℚ
  button : Option String
  time : Option ℚ
deriving DecidableEq

/-- Weight decoding: payloads shorter than six bytes decode to 0; else
read the first four bytes big-endian, scale and sign them, and keep that
value when its magnitude is at most 4000, otherwise re-read the same four
bytes little-endian and return that value. -/
def Message.decode_weight (p : List Nat) : ℚ :=
  if p.length < 6 then 0
  else
    let w := weightSign p * (rawBE p / weightDivisor p)
    if 0 ≤ |w| ∧ |w| ≤ 4000 then w
    else weightSign p * (rawLE p / weightDivisor p)

/-- Time decoding: payloads shorter than three bytes decode to 0; else
minutes, seconds and deciseconds combined. -/
def Message.decode_time (p : List Nat) : ℚ :=
  if p.length < 3 then 0
  else ((p.getD 0 0 % 256 : Nat) : ℚ) * 60 + ((p.getD 1 0 : Nat) : ℚ) +
    ((p.getD 2 0 : Nat) : ℚ) / 10

/-- Dispatch of the message constructor: computes the (value, button,
time) triple for a given type and payload, or none when the Python
constructor would raise an IndexError (type 11 with payload shorter than
3, type 8 with an empty payload or a one-byte payload whose sole byte is
one of the recognised button codes). -/
def Message.body (t : Nat) (p : List Nat) :
    Option (Option ℚ × Option String × Option ℚ) :=
  if t = 5 then some (some (Message.decode_weight p), none, none)
  else if t = 11 then
    if p.length < 3 then none
    else if p.getD 2 0 = 5 then
      some (some (Message.decode_weight (p.drop 3)), none, none)
    else if p.getD 2 0 = 7 then
      some (none, none, some (Message.decode_time (p.drop 3)))
    else some (none, none, none)
  else if t = 7 then some (none, none, some (Message.decode_time p))
  else if t = 8 then
    match p with
    | [] => none
    | [x] =>
      if x = 0 ∨ x = 8 ∨ x = 10 ∨ x = 9 then none
      else some (none, some "unknownbutton", none)
    | x :: y :: _ =>
      if x = 0 ∧ y = 5 then
        some (some (Message.decode_weight (p.drop 2)), some "tare", none)
      else if x = 8 ∧ y = 5 then
        some (some (Message.decode_weight (p.drop 2)), some "start", none)
      else if x = 10 ∧ y = 7 then
        some (some (Message.decode_weight (p.drop 6)), some "stop",
          some (Message.decode_time (p.drop 2)))
      else if x = 9 ∧ y = 7 then
        some (some (Message.decode_weight (p.drop 6)), some "reset",
          some (Message.decode_time (p.drop 2)))
      else some (none, some "unknownbutton", none)
  else some (none, none, none)

/-- Fallible message constructor; none models a raised IndexError, which
the frame decoder catches. -/
def Message.construct (t : Nat) (p : List Nat) : Option Message :=
  (Message.body t p).map (fun vbt => ⟨t, p, vbt.1, vbt.2.1, vbt.2.2⟩)

/-- A decoded settings record: battery percentage (7-bit), unit name,
auto-off minutes and beep flag. -/
structure Settings where
  battery : Nat
  units : Option String
  auto_off : Nat
  beep_on : Bool
deriving DecidableEq

/-- Fallible settings constructor; none models a raised IndexError on
payloads shorter than seven bytes (the constructor reads up to index 6). -/
def Settings.construct (p : List Nat) : Option Settings :=
  if p.length < 7 then none
  else some ⟨p.getD 1 0 % 128,
    if p.getD 2 0 = 2 then some "grams"
    else if p.getD 2 0 = 5 then some "ounces"
    else none,
    p.getD 4 0 * 5,
    p.getD 6 0 == 1⟩

/-- A frame is either an event message or a settings record. -/
inductive DecodedFrame where
  | msg : Message → DecodedFrame
  | settings : Settings → DecodedFrame
deriving DecidableEq

/-- Index of the first occurrence of the two-byte magic header, scanning
every adjacent pair like the source's loop over range(len - 1). -/
def headerPos : List Nat → Option Nat
  | a :: b :: rest =>
    if a = HEADER1 ∧ b = HEADER2 then some 0
    else (headerPos (b :: rest)).map (fun i => i + 1)
  | _ => none

/-- Frame decoding from a found header position i: byte i+3 declares the
payload length, the frame ends at i plus that length plus 5; incomplete
frames return no message and the whole buffer; command byte 12 builds a
Message from byte i+4 and the bytes i+5 up to the frame end, command byte
8 builds Settings from the bytes from i+3 on, anything else skips the
frame; a constructor failure (a caught exception) returns no message and
the whole buffer. -/
def decodeFrom (b : List Nat) (i : Nat) : Option DecodedFrame × List Nat :=
  if b.length < i + 6 then (none, b)
  else if b.length < i + b.getD (i + 3) 0 + 5 then (none, b)
  else if b.getD (i + 2) 0 = 12 then
    match Message.construct (b.getD (i + 4) 0)
        ((b.take (i + b.getD (i + 3) 0 + 5)).drop (i + 5)) with
    | some m => (some (DecodedFrame.msg m), b.drop (i + b.getD (i + 3) 0 + 5))
    | none => (none, b)
  else if b.getD (i + 2) 0 = 8 then
    match Settings.construct (b.drop (i + 3)) with
    | some s =>
      (some (DecodedFrame.settings s), b.drop (i + b.getD (i + 3) 0 + 5))
    | none => (none, b)
  else (none, b.drop (i + b.getD (i + 3) 0 + 5))

/-- Buffer decoding: scan for the magic header; when absent return no
message and the buffer unchanged, otherwise decode the frame found
there. -/
def decode (b : List Nat) : Option DecodedFrame × List Nat :=
  match headerPos b with
  | none => (none, b)
  | some i => decodeFrom b i

/-- Observer extracting the Message of a decode result (a placeholder
message when the result is not an event message). -/
def decodedMessage (b : List Nat) : Message :=
  match (decode b).1 with
  | some (DecodedFrame.msg m) => m
  | _ => ⟨0, [], none, none, none⟩

/-- Checksum byte 1 of an event frame (named for use in round-trip
statements). -/
def eventCksum1 (p : List Nat) : Nat :=
  sumEven ((p.length + 1) :: p.map (fun v => v % 256)) % 256

/-- Checksum byte 2 of an event frame. -/
def eventCksum2 (p : List Nat) : Nat :=
  sumEven (((p.length + 1) :: p.map (fun v => v % 256)).drop 1) % 256

/-! ## Brew safety controller, from src/lib/control.py -/

/-- Default recipe target weight (grams). -/
def default_target : ℚ := 36

/-- Default learned overshoot correction (grams). -/
def default_overshoot : ℚ := 1

/-- One named recipe memory: target weight, learned overshoot and a
display color. -/
structure TargetMemory where
  name : String
  target : ℚ
  overshoot : ℚ
  color : String
deriving DecidableEq

/-- Constructor of a recipe memory with the default target and
overshoot. -/
def TargetMemory.init (name : String) (color : String) : TargetMemory :=
  ⟨name, default_target, default_overshoot, color⟩

/-- Effective stop threshold of a memory. -/
def TargetMemory.target_minus_overshoot (m : TargetMemory) : ℚ :=
  m.target - m.overshoot

/-- Overshoot calibration update: propose the current overshoot plus the
difference between observed weight and target; ignore the update when the
proposal is above 10 or below -10, otherwise commit it. -/
def TargetMemory.update_overshoot (m : TargetMemory) (weight : ℚ) :
    TargetMemory :=
  let new_overshoot := m.overshoot + (weight - m.target)
  if new_overshoot > 10 ∨ new_overshoot < -10 then m
  else { m with overshoot := new_overshoot }

/-- The default memory "A" used in scenario statements. -/
def memA : TargetMemory := TargetMemory.init "A" "#ff1303"

/-- Elapsed shot time: zero when no shot has started, now minus start
while the relay is on, frozen at off-time minus start once it is off. -/
def shot_time_elapsed (now : ℚ) (shot_timer_start : Option ℚ)
    (relay_on : Bool) (relay_off_time : ℚ) : ℚ :=
  match shot_timer_start with
  | none => 0
  | some start => if relay_on then now - start else relay_off_time - start

/-- Outcome of one run of the orchestrator's per-tick stop check: whether
it invoked disableRelay and whether it scheduled the overshoot update. -/
structure CheckResult where
  disableRelay : Bool
  scheduleOvershoot : Bool
deriving DecidableEq

/-- The orchestrator's per-tick stop check: a no-op while less than 1.5
seconds of shot time have elapsed; afterwards, when the relay is on and
the current weight exceeds the memory's target minus overshoot, invoke
disableRelay and schedule the overshoot update. -/
def check_target_disable_relay (now : ℚ) (shot_timer_start : Option ℚ)
    (relay_on : Bool) (relay_off_time weight : ℚ) (m : TargetMemory) :
    CheckResult :=
  if shot_time_elapsed now shot_timer_start relay_on relay_off_time < 3 / 2 then
    ⟨false, false⟩
  else if relay_on = true ∧ m.target_minus_overshoot < weight then
    ⟨true, true⟩
  else ⟨false, false⟩

/-- Flow-sample insertion: while the relay is on, or within the 3-second
grace window after relay-off, append the sample and evict the oldest one
when the buffer exceeds its capacity; otherwise drop the sample. -/
def add_flow_rate_data (relay_on : Bool) (relay_off_time now : ℚ)
    (max_points : Nat) (flow : List ℚ) (x : ℚ) : List ℚ :=
  if relay_on = true ∨ relay_off_time + 3 > now then
    let appended := flow ++ [x]
    if max_points < appended.length then appended.tail else appended
  else flow

/-- Repeated flow-sample insertion with the relay on. -/
def addFlowSamples (max_points : Nat) (flow : List ℚ) (xs : List ℚ) :
    List ℚ :=
  xs.foldl (fun b x => add_flow_rate_data true 0 0 max_points b x) flow

/-- One watchdog iteration's observations: relay state and the paddle at
the two consecutive checks, together with surrounding state the watchdog
does not consult. -/
structure WatchdogObs where
  relay_on : Bool
  paddle1_pressed : Bool
  paddle2_pressed : Bool
  scale_connected : Bool
deriving DecidableEq

/-- Whether one watchdog iteration invokes disableRelay: the relay is on
and the paddle was observed released at both consecutive checks. -/
def watchdog_disables (o : WatchdogObs) : Bool :=
  o.relay_on && !o.paddle1_pressed && !o.paddle2_pressed

/-- State consulted and mutated by the auto-sleep check, together with
the relay state it does not consult. -/
structure SleepSt where
  connected : Bool
  weight : ℚ
  last_weight_check : ℚ
  is_sleeping : Bool
  last_activity : ℚ
  sleep_end_time : ℚ
  idle_timeout : ℚ
  sleep_pause : ℚ
  relay_on : Bool
deriving DecidableEq

/-- Activity event: refresh the activity timestamp and clear the sleeping
flag. -/
def activity_detected (now : ℚ) (s : SleepSt) : SleepSt :=
  { s with last_activity := now, is_sleeping := false }

/-- The auto-sleep check.  When the scale is connected: a weight change
beyond 0.3 g counts as activity; then, when not already sleeping and the
idle timeout has elapsed since the last activity, enter sleep, set the
wake deadline and disconnect the scale (the boolean result records the
disconnect call).  When disconnected and sleeping, auto-wake once the
deadline passes. -/
def check_auto_sleep (now : ℚ) (s : SleepSt) : SleepSt × Bool :=
  if s.connected = true then
    let s1 := if |s.weight - s.last_weight_check| > 3 / 10 then
        activity_detected now s else s
    let s2 := { s1 with last_weight_check := s1.weight }
    if s2.is_sleeping = false ∧ s2.idle_timeout < now - s2.last_activity then
      ({ s2 with
          is_sleeping := true
          sleep_end_time := now + s2.sleep_pause
          connected := false }, true)
    else (s2, false)
  else
    if s.is_sleeping = true ∧ s.sleep_end_time < now then
      (activity_detected now s, false)
    else (s, false)

/-- A concrete sleep state: scale connected, relay on, no activity for
1000 s against a 300 s timeout. -/
def sleepGhost : SleepSt := ⟨true, 0, 0, false, 0, 0, 300, 360, true⟩

/-- A concrete sleep state used as a witness input. -/
def sleepW : SleepSt := ⟨true, 0, 0, false, 0, 0, 300, 360, false⟩

/-! ## Scale connection attempt, from src/lib/control.py try_connect_scale -/

/-- The state read and written by a connection attempt: the scale's
connected flag and MAC, the controller's switch inputs, relay, shot timer,
flow buffer, activity bookkeeping, and two oracle bits for the outcome of
the underlying connect call (whether it raises, and the connected flag it
leaves behind). -/
structure SysState where
  scale_connected : Bool
  should_connect : Bool
  discovered_mac : Option String
  scale_mac : Option String
  relay_on : Bool
  paddle_pressed : Bool
  shot_timer_start : Option ℚ
  flow_rate_data : List ℚ
  last_activity : ℚ
  is_sleeping : Bool
  scale_is_connected_flag : Bool
  connect_raises : Bool
  connect_result : Bool
deriving DecidableEq

/-- One connection attempt.  Mirror of the source: publish the connected
flag; when the connect switch is off, disconnect and report false; when
already connected report true; when a discovered MAC is waiting, register
activity, adopt the MAC, clear the flow buffer, reset the shot timer only
when no shot is running, force the relay off when it is on without the
paddle pressed (the ghost-start check), then connect and consume the
mailbox — an exception from connect is caught, clearing the mailbox and
reporting false. -/
def try_connect_scale (now : ℚ) (s0 : SysState) : Bool × SysState :=
  let s := { s0 with scale_is_connected_flag := s0.scale_connected }
  if s.should_connect = false then
    if s.scale_connected = true then (false, { s with scale_connected := false })
    else (false, s)
  else if s.scale_connected = true then (true, s)
  else
    match s.discovered_mac with
    | some mac =>
      let s1 := { s with
          last_activity := now
          is_sleeping := false
          scale_mac := some mac
          flow_rate_data := [] }
      let s2 := if s1.relay_on = false then
          { s1 with shot_timer_start := none } else s1
      let s3 := if s2.relay_on = true ∧ s2.paddle_pressed = false then
          { s2 with relay_on := false } else s2
      if s3.connect_raises = true then (false, { s3 with discovered_mac := none })
      else (true, { s3 with
          scale_connected := s3.connect_result
          discovered_mac := none })
    | none => (false, s)

/-- A concrete system state: connect switch on, scale disconnected, a MAC
in the mailbox, relay on, paddle released. -/
def sysGhost : SysState :=
  ⟨false, true, some "00:11:22:33", none, true, false, some 0, [], 0, false,
    false, false, true⟩

/-! ## Theorems -/

/-- C10: the orchestrator's weight-threshold stop check is a no-op while
less than 1.5 seconds of shot time have elapsed: it neither disables the
relay nor schedules an overshoot update, regardless of the current
weight. -/
theorem c10_early_shot_suppression (now : ℚ) (start : Option ℚ)
    (relay_on : Bool) (off_time weight : ℚ) (m : TargetMemory)
    (h : shot_time_elapsed now start relay_on off_time < 3 / 2) :
    check_target_disable_relay now start relay_on off_time weight m =
      ⟨false, false⟩ := by
  simp [check_target_disable_relay, if_pos h]

/-- C10 witness: with no shot started (elapsed time 0) and the relay on,
a 1000 g reading neither disables the relay nor schedules an update. -/
theorem c10_early_shot_suppression_witness :
    check_target_disable_relay 0 none true 0 1000 memA = ⟨false, false⟩ :=
  c10_early_shot_suppression 0 none true 0 1000 memA
    (by norm_num [shot_time_elapsed])

/-- C1 counterexample: one second into a shot, with the relay on and the
weight (100 g) far above the effective threshold (35 g), the per-tick
check does not invoke disableRelay — refuting that the check fires
exactly when the weight exceeds target minus overshoot. -/
theorem c1_counterexample :
    (check_target_disable_relay 1 (some 0) true 0 100 memA).disableRelay =
      false ∧
    memA.target_minus_overshoot < 100 ∧ memA.target = 36 ∧
    memA.overshoot = 1 := by
  refine ⟨?_, ?_, ?_, ?_⟩ <;>
    norm_num [check_target_disable_relay, shot_time_elapsed, memA,
      TargetMemory.init, TargetMemory.target_minus_overshoot,
      default_target, default_overshoot]

/-- C1 (amended): once at least 1.5 seconds of shot time have elapsed,
with the relay on the per-tick check invokes disableRelay exactly when
the current weight exceeds the memory's target minus overshoot; with
target 36 and overshoot 1, samples 34.0 and 34.9 do not trigger it and
35.1 does. -/
theorem c1_stop_threshold (now : ℚ) (start : Option ℚ)
    (off_time weight : ℚ) (m : TargetMemory)
    (h : 3 / 2 ≤ shot_time_elapsed now start true off_time) :
    ((check_target_disable_relay now start true off_time weight m).disableRelay
        = true ↔ m.target_minus_overshoot < weight) ∧
    (check_target_disable_relay now start true off_time 34 memA).disableRelay
      = false ∧
    (check_target_disable_relay now start true off_time (349 / 10)
        memA).disableRelay = false ∧
    (check_target_disable_relay now start true off_time (351 / 10)
        memA).disableRelay = true := by
  have hn : ¬ shot_time_elapsed now start true off_time < 3 / 2 :=
    not_lt.mpr h
  refine ⟨?_, ?_, ?_, ?_⟩ <;>
    · simp only [check_target_disable_relay, if_neg hn]
      split_ifs with hc <;>
        simp_all [memA, TargetMemory.init, TargetMemory.target_minus_overshoot,
          default_target, default_overshoot] <;>
        norm_num at hc ⊢

/-- C1 witness: two seconds into a shot with the relay on, the amended
equivalence holds and a 40 g reading is above the 35 g threshold. -/
theorem c1_stop_threshold_witness :
    (((check_target_disable_relay 2 (some 0) true 0 40 memA).disableRelay
        = true) ↔ memA.target_minus_overshoot < 40) ∧
    (check_target_disable_relay 2 (some 0) true 0 34 memA).disableRelay
      = false ∧
    (check_target_disable_relay 2 (some 0) true 0 (349 / 10)
        memA).disableRelay = false ∧
    (check_target_disable_relay 2 (some 0) true 0 (351 / 10)
        memA).disableRelay = true :=
  c1_stop_threshold 2 (some 0) 0 40 memA (by norm_num [shot_time_elapsed])

/-- C2: whenever the relay is on and the paddle is observed released at
two consecutive watchdog checks, the watchdog invokes disableRelay; and
the watchdog's decision depends only on the relay state and the two
paddle observations — two observation states agreeing on those three
fields produce the same decision, independent of scale connectivity. -/
theorem c2_watchdog_forces_off (o o2 : WatchdogObs) :
    (o.relay_on = true → o.paddle1_pressed = false →
      o.paddle2_pressed = false → watchdog_disables o = true) ∧
    (o.relay_on = o2.relay_on → o.paddle1_pressed = o2.paddle1_pressed →
      o.paddle2_pressed = o2.paddle2_pressed →
      watchdog_disables o = watchdog_disables o2) := by
  constructor
  · intro h1 h2 h3
    simp [watchdog_disables, h1, h2, h3]
  · intro e1 e2 e3
    simp [watchdog_disables, e1, e2, e3]

/-- C2 witness: relay on and paddle released twice forces the relay off,
and the decision is the same whether or not the scale is connected. -/
theorem c2_watchdog_forces_off_witness :
    watchdog_disables ⟨true, false, false, true⟩ = true ∧
    watchdog_disables ⟨true, false, false, true⟩ =
      watchdog_disables ⟨true, false, false, false⟩ :=
  ⟨(c2_watchdog_forces_off ⟨true, false, false, true⟩
      ⟨true, false, false, false⟩).1 rfl rfl rfl,
   (c2_watchdog_forces_off ⟨true, false, false, true⟩
      ⟨true, false, false, false⟩).2 rfl rfl rfl⟩

/-- C3: every connection attempt (connect switch on, scale disconnected,
a discovered MAC waiting) that runs while the relay is on and the paddle
is not pressed leaves the relay forced off — the ghost-start safety
check, applied before the connect call so it covers both successful and
failed attempts. -/
theorem c3_ghost_start_forces_relay_off (now : ℚ) (s : SysState)
    (mac : String) (h1 : s.should_connect = true)
    (h2 : s.scale_connected = false) (h3 : s.discovered_mac = some mac)
    (h4 : s.relay_on = true) (h5 : s.paddle_pressed = false) :
    (try_connect_scale now s).2.relay_on = false := by
  cases hr : s.connect_raises <;>
    simp [try_connect_scale, h1, h2, h3, h4, h5, hr]

/-- C3 witness: the concrete ghost-start state leaves the relay off after
the connection attempt. -/
theorem c3_ghost_start_forces_relay_off_witness :
    (try_connect_scale 5 sysGhost).2.relay_on = false :=
  c3_ghost_start_forces_relay_off 5 sysGhost "00:11:22:33" rfl rfl rfl rfl rfl

/-- C4: the overshoot update commits the proposal o + (w - t) exactly
when it lies in [-10, 10] and otherwise leaves the overshoot unchanged;
the target, name and color are unchanged in both cases. -/
theorem c4_overshoot_clamp (m : TargetMemory) (w : ℚ) :
    ((m.update_overshoot w).overshoot =
      if -10 ≤ m.overshoot + (w - m.target) ∧ m.overshoot + (w - m.target) ≤ 10
      then m.overshoot + (w - m.target) else m.overshoot) ∧
    (m.update_overshoot w).target = m.target ∧
    (m.update_overshoot w).name = m.name ∧
    (m.update_overshoot w).color = m.color := by
  by_cases h : m.overshoot + (w - m.target) > 10 ∨
      m.overshoot + (w - m.target) < -10
  · have hB : ¬(-10 ≤ m.overshoot + (w - m.target) ∧
        m.overshoot + (w - m.target) ≤ 10) := by
      rcases h with h | h
      · intro hc; linarith [hc.2]
      · intro hc; linarith [hc.1]
    simp [TargetMemory.update_overshoot, h, hB]
  · have hB : -10 ≤ m.overshoot + (w - m.target) ∧
        m.overshoot + (w - m.target) ≤ 10 := by
      push_neg at h
      exact ⟨h.2, h.1⟩
    simp [TargetMemory.update_overshoot, h, hB]

/-- C9 counterexample: with the scale connected, the relay ON and 1000 s
of inactivity against a 300 s timeout, the auto-sleep check still enters
the sleeping state — refuting that entering Asleep requires the relay to
be off. -/
theorem c9_counterexample :
    (check_auto_sleep 1000 sleepGhost).1.is_sleeping = true ∧
    sleepGhost.relay_on = true := by
  norm_num [check_auto_sleep, sleepGhost, activity_detected]

/-- C9 (amended): when not already sleeping, the auto-sleep check enters
Asleep exactly when the scale is connected and the elapsed time since the
last activity — after the same tick's weight-delta activity update —
exceeds the idle timeout, independent of the relay state; on entering
Asleep the scale link is disconnected; and an activity event on a
sleeping state immediately clears the sleeping flag. -/
theorem c9_auto_sleep (now : ℚ) (s : SleepSt) (h : s.is_sleeping = false) :
    ((check_auto_sleep now s).1.is_sleeping = true ↔
      (s.connected = true ∧ s.idle_timeout <
        now - (if |s.weight - s.last_weight_check| > 3 / 10 then now
               else s.last_activity))) ∧
    ((check_auto_sleep now s).1.is_sleeping = true →
      (check_auto_sleep now s).2 = true ∧
      (check_auto_sleep now s).1.connected = false) ∧
    (activity_detected now { s with is_sleeping := true }).is_sleeping =
      false := by
  refine ⟨?_, ?_, by simp [activity_detected]⟩ <;>
  · by_cases hc : s.connected = true
    · by_cases hw : |s.weight - s.last_weight_check| > 3 / 10
      · by_cases hi : s.idle_timeout < (0 : ℚ) <;>
          simp [check_auto_sleep, activity_detected, hc, hw, hi, h]
      · by_cases hi : s.idle_timeout < now - s.last_activity <;>
          simp [check_auto_sleep, activity_detected, hc, hw, hi, h]
    · simp [check_auto_sleep, activity_detected, hc, h]

/-- C9 witness: in a concrete connected, awake state with 1000 s of
inactivity, the amended characterisation holds. -/
theorem c9_auto_sleep_witness :
    ((check_auto_sleep 1000 sleepW).1.is_sleeping = true ↔
      (sleepW.connected = true ∧ sleepW.idle_timeout <
        1000 - (if |sleepW.weight - sleepW.last_weight_check| > 3 / 10
                then 1000 else sleepW.last_activity))) ∧
    ((check_auto_sleep 1000 sleepW).1.is_sleeping = true →
      (check_auto_sleep 1000 sleepW).2 = true ∧
      (check_auto_sleep 1000 sleepW).1.connected = false) ∧
    (activity_detected 1000 { sleepW with is_sleeping := true }).is_sleeping
      = false :=
  c9_auto_sleep 1000 sleepW rfl

/-- Closed form of repeated flow-sample insertion with the relay on:
starting from a buffer within capacity, the result is the last C elements
of the old buffer followed by the inserted samples. -/
theorem addFlowSamples_eq (C : Nat) (xs : List ℚ) :
    ∀ buf : List ℚ, buf.length ≤ C →
      addFlowSamples C buf xs =
        (buf ++ xs).drop (buf.length + xs.length - C) := by
  induction xs with
  | nil =>
    intro buf h
    simp [addFlowSamples, Nat.sub_eq_zero_of_le h]
  | cons x xs ih =>
    intro buf h
    have hstep : addFlowSamples C buf (x :: xs) =
        addFlowSamples C (add_flow_rate_data true 0 0 C buf x) xs := rfl
    rw [hstep]
    by_cases hfull : C < buf.length + 1
    · have hbl : buf.length = C := by omega
      have hval : add_flow_rate_data true 0 0 C buf x =
          (buf ++ [x]).drop 1 := by
        simp [add_flow_rate_data, hfull, List.drop_one]
      rw [hval, ih _ (by simp only [List.length_drop, List.length_append,
        List.length_cons, List.length_nil]; omega)]
      rw [← List.drop_append_of_le_length (by simp)]
      rw [List.drop_drop]
      have hl : (buf ++ [x]) ++ xs = buf ++ x :: xs := by simp
      rw [hl]
      congr 1
      simp only [List.length_drop, List.length_append, List.length_cons,
        List.length_nil]
      omega
    · have hval : add_flow_rate_data true 0 0 C buf x = buf ++ [x] := by
        simp [add_flow_rate_data, hfull]
      rw [hval, ih _ (by simp only [List.length_append, List.length_cons,
        List.length_nil]; omega)]
      have hl : (buf ++ [x]) ++ xs = buf ++ x :: xs := by simp
      rw [hl]
      congr 1
      simp only [List.length_append, List.length_cons, List.length_nil]
      omega

/-- C8: inserting more than C samples with the relay on into a buffer
within capacity leaves exactly the most recent C samples in insertion
order, and the buffer's length never exceeds C along the way (stated for
every take-prefix of the insertion sequence). -/
theorem c8_flow_buffer_bound (C : Nat) (buf xs : List ℚ) (n : Nat)
    (hbuf : buf.length ≤ C) (hxs : C < xs.length) :
    addFlowSamples C buf xs = xs.drop (xs.length - C) ∧
    (addFlowSamples C buf (xs.take n)).length ≤ C := by
  constructor
  · rw [addFlowSamples_eq C xs buf hbuf]
    have hsplit : buf.length + xs.length - C =
        buf.length + (xs.length - C) := by omega
    rw [hsplit, List.drop_append]
  · rw [addFlowSamples_eq C (xs.take n) buf hbuf]
    simp only [List.length_drop, List.length_append, List.length_take]
    omega

/-- C8 witness: with capacity 2, inserting 1, 2, 3 into an empty buffer
leaves [2, 3], and the intermediate buffer never exceeds two samples. -/
theorem c8_flow_buffer_bound_witness :
    addFlowSamples 2 [] [1, 2, 3] = List.drop 1 [1, 2, 3] ∧
    (addFlowSamples 2 [] (List.take 2 [1, 2, 3])).length ≤ 2 :=
  c8_flow_buffer_bound 2 [] [1, 2, 3] 2 (by simp) (by simp)

/-- C6: for byte-valued payloads, a payload shorter than six bytes decodes
to 0 without raising; a payload of at least six bytes is decoded from the
first four bytes as an unsigned big-endian integer, scaled by the divisor
selected by the fifth byte and signed by bit 1 of the sixth byte, and the
same four bytes are re-decoded as little-endian and returned exactly when
that big-endian magnitude exceeds 4000 g. -/
theorem c6_weight_decode (p : List Nat) (hb : ∀ x ∈ p, x < 256) :
    (p.length < 6 → Message.decode_weight p = 0) ∧
    (6 ≤ p.length → 4000 < |weightSign p * (rawBE p / weightDivisor p)| →
      Message.decode_weight p = weightSign p * (rawLE p / weightDivisor p)) ∧
    (6 ≤ p.length → |weightSign p * (rawBE p / weightDivisor p)| ≤ 4000 →
      Message.decode_weight p = weightSign p * (rawBE p / weightDivisor p)) := by
  refine ⟨fun hshort => ?_, fun hlen hgt => ?_, fun hlen hle => ?_⟩
  · simp [Message.decode_weight, hshort]
  · have hnl : ¬ p.length < 6 := not_lt.mpr hlen
    have hno : ¬(0 ≤ |weightSign p * (rawBE p / weightDivisor p)| ∧
        |weightSign p * (rawBE p / weightDivisor p)| ≤ 4000) := by
      intro hcon
      exact absurd hgt (not_lt.mpr hcon.2)
    simp only [Message.decode_weight, if_neg hnl, if_neg hno]
  · have hnl : ¬ p.length < 6 := not_lt.mpr hlen
    have hyes : 0 ≤ |weightSign p * (rawBE p / weightDivisor p)| ∧
        |weightSign p * (rawBE p / weightDivisor p)| ≤ 4000 :=
      ⟨abs_nonneg _, hle⟩
    simp only [Message.decode_weight, if_neg hnl, if_pos hyes]

/-- C6 witness: the payload [0, 1, 0, 0, 1, 0] reads 65536 big-endian,
i.e. 6553.6 g after the divisor 10 — over the 4000 g bound — so the
little-endian reading 256 is used, giving 25.6 g. -/
theorem c6_weight_decode_witness :
    Message.decode_weight [0, 1, 0, 0, 1, 0] =
      weightSign [0, 1, 0, 0, 1, 0] *
        (rawLE [0, 1, 0, 0, 1, 0] / weightDivisor [0, 1, 0, 0, 1, 0]) :=
  (c6_weight_decode [0, 1, 0, 0, 1, 0] (by decide)).2.1 (by decide)
    (by norm_num [weightSign, weightDivisor, rawBE, List.getD, abs_of_nonneg])

/-- C7: decoding a buffer with no magic header, or whose found header is
not followed by a minimal complete frame (fewer than six bytes remain, or
the declared payload length overruns the buffer), returns no message and
the buffer unchanged; and a frame whose message or settings construction
raises (models the caught exception) likewise degrades to no message with
the buffer kept. -/
theorem c7_decode_malformed (b : List Nat) (i : Nat)
    (h : headerPos b = none ∨
      (headerPos b = some i ∧
        (b.length < i + 6 ∨
         b.length < i + b.getD (i + 3) 0 + 5 ∨
         (b.getD (i + 2) 0 = 12 ∧
           Message.construct (b.getD (i + 4) 0)
             ((b.take (i + b.getD (i + 3) 0 + 5)).drop (i + 5)) = none) ∨
         (b.getD (i + 2) 0 = 8 ∧
           Settings.construct (b.drop (i + 3)) = none)))) :
    decode b = (none, b) := by
  rcases h with hnone | ⟨hsome, hcase⟩
  · simp [decode, hnone]
  · simp only [decode, hsome]
    unfold decodeFrom
    by_cases h6 : b.length < i + 6
    · rw [if_pos h6]
    · rw [if_neg h6]
      by_cases hend : b.length < i + b.getD (i + 3) 0 + 5
      · rw [if_pos hend]
      · rw [if_neg hend]
        rcases hcase with hc | hc | ⟨hcmd, hmsg⟩ | ⟨hcmd, hset⟩
        · exact absurd hc h6
        · exact absurd hc hend
        · rw [if_pos hcmd, hmsg]
        · have h12 : ¬ b.getD (i + 2) 0 = 12 := by omega
          rw [if_neg h12, if_pos hcmd, hset]

/-- C7 witness: the buffer [1, 2, 3] has no magic header and decodes to
no message with the buffer unchanged. -/
theorem c7_decode_malformed_witness :
    decode [1, 2, 3] = (none, [1, 2, 3]) :=
  c7_decode_malformed [1, 2, 3] 0 (Or.inl rfl)

/-- Masking a byte list to 8 bits is idempotent. -/
theorem mask_mask (l : List Nat) :
    (l.map (fun v => v % 256)).map (fun v => v % 256) =
      l.map (fun v => v % 256) := by
  induction l with
  | nil => rfl
  | cons a t ih =>
    simp only [List.map_cons, ih]
    rw [Nat.mod_mod_of_dvd a dvd_rfl]

/-- Concrete shape of an event frame for a nonempty payload whose length
byte fits in 8 bits. -/
theorem encodeEventData_eq (a : Nat) (q : List Nat)
    (h : q.length + 2 < 256) :
    encodeEventData (a :: q) =
      239 :: 221 :: 12 :: (q.length + 2) :: (a % 256) ::
        (q.map (fun v => v % 256) ++
          [eventCksum1 (a :: q), eventCksum2 (a :: q)]) := by
  simp only [encodeEventData, encode, eventCksum1, eventCksum2,
    List.map_cons, mask_mask, List.length_cons, HEADER1, HEADER2,
    List.drop_succ_cons, List.drop_zero]
  rw [Nat.mod_eq_of_lt h]
  simp

/-- The message dispatch succeeds on payloads of length at least two,
except for type 11 which additionally needs length at least three. -/
theorem body_isSome (t : Nat) (p : List Nat) (h2 : 2 ≤ p.length)
    (h11 : t = 11 → 3 ≤ p.length) : (Message.body t p).isSome = true := by
  obtain ⟨x, y, r, rfl⟩ : ∃ x y r, p = x :: y :: r := by
    cases p with
    | nil => simp at h2
    | cons x q =>
      cases q with
      | nil => simp at h2
      | cons y r => exact ⟨x, y, r, rfl⟩
  by_cases h5 : t = 5
  · simp [Message.body, h5]
  by_cases ht : t = 11
  · have h3 : ¬((x :: y :: r).length < 3) := not_lt.mpr (h11 ht)
    simp only [Message.body, h5, ht, if_false, if_true, h3]
    split_ifs <;> first | rfl | omega
  by_cases h7 : t = 7
  · simp [Message.body, h5, ht, h7]
  by_cases h8 : t = 8
  · simp only [Message.body, h5, ht, h7, h8, if_false, if_true]
    split_ifs <;> first | rfl | omega
  · simp [Message.body, h5, ht, h7, h8]

/-- The constructed message carries the given type and payload. -/
theorem construct_of_body (t : Nat) (p : List Nat)
    (vbt : Option ℚ × Option String × Option ℚ)
    (h : Message.body t p = some vbt) :
    Message.construct t p = some ⟨t, p, vbt.1, vbt.2.1, vbt.2.2⟩ := by
  simp [Message.construct, h]

/-- A buffer starting with the two magic bytes has its header at
position 0. -/
theorem headerPos_magic (l : List Nat) :
    headerPos (239 :: 221 :: l) = some 0 := by
  simp [headerPos, HEADER1, HEADER2]

/-- Frame decoding of a well-formed command-12 frame whose payload-length
byte matches the rest of the buffer yields the constructed message and an
empty remainder. -/
theorem decodeFrom_shape (n am : Nat) (rest : List Nat) (msg : Message)
    (hrest : rest.length = n + 2)
    (hcon : Message.construct am rest = some msg) :
    decodeFrom (239 :: 221 :: 12 :: (n + 2) :: am :: rest) 0 =
      (some (DecodedFrame.msg msg), []) := by
  have hlen : (239 :: 221 :: 12 :: (n + 2) :: am :: rest).length = n + 7 := by
    simp [hrest]
  have hg3 : (239 :: 221 :: 12 :: (n + 2) :: am :: rest).getD 3 0 = n + 2 :=
    rfl
  have hg2 : (239 :: 221 :: 12 :: (n + 2) :: am :: rest).getD 2 0 = 12 := rfl
  have hg4 : (239 :: 221 :: 12 :: (n + 2) :: am :: rest).getD 4 0 = am := rfl
  have hdrop : (239 :: 221 :: 12 :: (n + 2) :: am :: rest).drop 5 = rest :=
    rfl
  unfold decodeFrom
  simp only [Nat.zero_add, hg3, hg2, hg4, hlen]
  have htake : List.take (n + 2 + 5)
      (239 :: 221 :: 12 :: (n + 2) :: am :: rest) =
      239 :: 221 :: 12 :: (n + 2) :: am :: rest :=
    List.take_of_length_le (by rw [hlen])
  have hdropend : List.drop (n + 2 + 5)
      (239 :: 221 :: 12 :: (n + 2) :: am :: rest) = [] :=
    List.drop_of_length_le (by rw [hlen])
  rw [if_neg (by omega), if_neg (by omega)]
  simp only [if_true]
  rw [htake, hdrop, hcon, hdropend]

/-- C5 counterexample: encoding message type 5 with payload [1] and
decoding the result yields no message at all (the decoder reads byte 3 as
a length field and byte 2 as a command byte, and skips command 5), so
decode does not recover the type and payload from encode. -/
theorem c5_counterexample :
    (decode (encode 5 [1])).1 = none ∧
    encode 5 [1] = [239, 221, 5, 1, 1, 0] := by
  constructor
  · decide
  · rfl

/-- C5 (amended): encode and decode are not mutual inverses; the
round-trip holds for the event wrapper that produces the frames the
decoder accepts: for every nonempty payload p with length byte below 256
(and excluding a one-byte payload whose sole byte is 11 mod 256, where
message construction raises), decoding the event frame yields exactly one
message with empty remainder, whose type is the first payload byte mod
256 and whose payload carries the masked tail of p followed by the two
checksum bytes. -/
theorem c5_event_roundtrip (p : List Nat) (h1 : p ≠ [])
    (h2 : p.length + 1 < 256)
    (h3 : ¬(p.length = 1 ∧ p.headD 0 % 256 = 11)) :
    (decode (encodeEventData p)).2 = [] ∧
    (decode (encodeEventData p)).1 =
      some (DecodedFrame.msg (decodedMessage (encodeEventData p))) ∧
    (decodedMessage (encodeEventData p)).msgType = p.headD 0 % 256 ∧
    (decodedMessage (encodeEventData p)).payload.take (p.length - 1) =
      (p.drop 1).map (fun v => v % 256) ∧
    (decodedMessage (encodeEventData p)).payload.length = p.length + 1 := by
  obtain ⟨a, q, rfl⟩ := List.exists_cons_of_ne_nil h1
  have h2q : q.length + 2 < 256 := by
    simpa using h2
  have hplen : (q.map (fun v => v % 256) ++
      [eventCksum1 (a :: q), eventCksum2 (a :: q)]).length = q.length + 2 := by
    simp
  have hps : 2 ≤ (q.map (fun v => v % 256) ++
      [eventCksum1 (a :: q), eventCksum2 (a :: q)]).length := by
    rw [hplen]; omega
  have hp11 : a % 256 = 11 → 3 ≤ (q.map (fun v => v % 256) ++
      [eventCksum1 (a :: q), eventCksum2 (a :: q)]).length := by
    intro ha
    rw [hplen]
    rcases Nat.eq_zero_or_pos q.length with hq | hq
    · exact absurd ⟨by simp [hq], by simpa using ha⟩ h3
    · omega
  obtain ⟨vbt, hvbt⟩ := Option.isSome_iff_exists.mp
    (body_isSome (a % 256) _ hps hp11)
  have hcon := construct_of_body (a % 256) _ vbt hvbt
  have hdec : decode (encodeEventData (a :: q)) =
      (some (DecodedFrame.msg ⟨a % 256,
        q.map (fun v => v % 256) ++
          [eventCksum1 (a :: q), eventCksum2 (a :: q)],
        vbt.1, vbt.2.1, vbt.2.2⟩), []) := by
    rw [encodeEventData_eq a q h2q]
    simp only [decode, headerPos_magic]
    exact decodeFrom_shape q.length (a % 256) _ _ hplen hcon
  have hdm : decodedMessage (encodeEventData (a :: q)) =
      ⟨a % 256,
        q.map (fun v => v % 256) ++
          [eventCksum1 (a :: q), eventCksum2 (a :: q)],
        vbt.1, vbt.2.1, vbt.2.2⟩ := by
    simp [decodedMessage, hdec]
  refine ⟨by rw [hdec], by rw [hdec, hdm], ?_, ?_, ?_⟩
  · rw [hdm]
    rfl
  · rw [hdm]
    simp only [List.length_cons, Nat.add_sub_cancel, List.drop_succ_cons,
      List.drop_zero]
    rw [← List.length_map q (fun v => v % 256)]
    exact List.take_left _ _
  · rw [hdm]
    simp

/-- C5 witness: the notification-request payload [0, 1, 1, 2, 2, 5, 3, 4]
round-trips through the event wrapper: one message, type 0, payload
starting with the tail [1, 1, 2, 2, 5, 3, 4], nine bytes, no remainder. -/
theorem c5_event_roundtrip_witness :
    (decode (encodeEventData [0, 1, 1, 2, 2, 5, 3, 4])).2 = [] ∧
    (decode (encodeEventData [0, 1, 1, 2, 2, 5, 3, 4])).1 =
      some (DecodedFrame.msg
        (decodedMessage (encodeEventData [0, 1, 1, 2, 2, 5, 3, 4]))) ∧
    (decodedMessage (encodeEventData [0, 1, 1, 2, 2, 5, 3, 4])).msgType = 0 ∧
    (decodedMessage
        (encodeEventData [0, 1, 1, 2, 2, 5, 3, 4])).payload.take 7 =
      [1, 1, 2, 2, 5, 3, 4] ∧
    (decodedMessage
        (encodeEventData [0, 1, 1, 2, 2, 5, 3, 4])).payload.length = 9 := by
  have h := c5_event_roundtrip [0, 1, 1, 2, 2, 5, 3, 4] (by decide)
    (by decide) (by decide)
  simpa using h

end LmBbw
